import Mathlib

/-!
Verification of the windowed-aggregation and checkpointed incremental-publish
engine of the aiot-manager repository (`sqlite_to_iotcore.py` together with the
ingest-side timestamp conventions of `mqtt_to_sqlite.py`).

Conventions of the shallow embedding:
* instants are epoch seconds as `Int`; Python's floor division/modulo on ints
  coincide with Lean's `Int` `/` and `%` for positive divisors;
* SQL NULL-able numeric values are `Option ℚ`; float arithmetic is modelled
  exactly over `ℚ`, and `round(x ** 0.5, 4)` is modelled as the nearest
  multiple of 10⁻⁴ to the exact square root (implemented sqrt-free below);
* the checkpoint table is the list of its rows in insertion order, a row
  holding `Option Int` (`none` models a stored SQL NULL);
* `datetime.fromtimestamp(·, tz)` is modelled by a recursive proleptic
  Gregorian year/month walk from 1970-01-01 (`dateOfDaysRec`), and the
  `datetime(y, mo, d, h, mi, tzinfo).timestamp()` constructor direction by the
  closed-form era formula (`daysFromCivil`); both agree on the sample dates
  checked below;
* the writer's `KST` (`mqtt_to_sqlite.py`) is the genuinely fixed
  `timezone(timedelta(hours=9))`, while the reader's `KST`
  (`sqlite_to_iotcore.py`) is `ZoneInfo("Asia/Seoul")`, whose offset for
  epochs at or after 1970 is +9 h except during the 1987-88 DST periods
  (+10 h); `seoulOffset`/`seoulOffsetOfCivil` carry exactly those published
  transitions, so the two sides genuinely disagree on 1987-88 instants;
* SQLite compares the stored `"YYYY-MM-DD HH:MM:SS"` text timestamps
  lexicographically, which on this fixed-width zero-padded format is exactly
  the lexicographic order on the civil field tuple, so the query's range
  condition is modelled on `CivilT` tuples;
* one iteration of the `while True` loop of `run_incremental` is the function
  `loopStep`, driven by an environment input (the clock value, the outcome of
  the aggregate query, and the index of a publish call that raises, if any);
  an uncaught exception ends the run, which `runSteps` models by stopping.
-/

/-! ### Window clock (sqlite_to_iotcore.floor_to_five_minutes_utc) -/

/-- `floor_to_five_minutes_utc`: the source converts the epoch second to a UTC
datetime, floors the minute to a multiple of 5 and zeroes seconds and
microseconds.  Replacing the minute/second fields of the UTC civil time of `e`
subtracts `e % 60` seconds and `minute - m5` whole minutes, where
`minute = (e / 60) % 60`. -/
def floor_to_five_minutes_utc (e : Int) : Int :=
  let minute := (e / 60) % 60
  let m5 := minute / 5 * 5
  e - e % 60 - minute * 60 + m5 * 60

/-! ### Standard deviation (sqlite_to_iotcore.calc_std) -/

/-- The nearest multiple of 10⁻⁴ to `√v` (ties upward), for `v ≥ 0`: with
`s = ⌊√⌊4·v·10⁸⌋⌋` the answer is `((s + 1) / 2) / 10⁴`, because
`⌊2·√v·10⁴⌋ = s` and rounding `x` to the nearest integer is `⌊(⌊2x⌋ + 1) / 2⌋`.
This models Python's `round(var ** 0.5, 4)` with exact real arithmetic. -/
def roundSqrt4 (v : ℚ) : ℚ :=
  (((Nat.sqrt (⌊4 * v * 100000000⌋).toNat + 1) / 2 : ℕ) : ℚ) / 10000

/-- `calc_std(avg, sumsq, n)`: `None` when any input is `None` or `n < 2`,
otherwise the sample standard deviation from the power sums, with negative
variance clamped to 0, rounded to 4 decimal places. -/
def calc_std (avg sumsq : Option ℚ) (n : Option Int) : Option ℚ :=
  match avg, sumsq, n with
  | some a, some s, some m =>
    if m < 2 then none
    else
      let var := (s - (m : ℚ) * a ^ 2) / ((m : ℚ) - 1)
      let var := if var < 0 then 0 else var
      some (roundSqrt4 var)
  | _, _, _ => none

/-! ### Local checkpoint (sqlite_to_iotcore lines 52-63) -/

/-- The `iot_checkpoint` table: its rows in insertion (ROWID) order; a row's
`last_end_utc` column may hold NULL (`none`). -/
def CkptTable := List (Option Int)

/-- `get_local_checkpoint`: `SELECT last_end_utc ... ORDER BY ROWID DESC LIMIT 1`
reads the most recently inserted row; an absent row and a NULL value are both
reported as `0`. -/
def get_local_checkpoint (tbl : CkptTable) : Int :=
  match List.getLast? tbl with
  | some (some v) => v
  | some none => 0
  | none => 0

/-- `update_local_checkpoint`: `DELETE FROM iot_checkpoint` then insert the one
new value, leaving exactly one row. -/
def update_local_checkpoint (v : Int) : CkptTable := [some v]

/-- The resume decision of `run_incremental` (lines 188-194): Python tests the
checkpoint value for truthiness, so any non-zero value is used as the anchor
and otherwise the S3 fallback result is used. -/
def resumeAnchor (tbl : CkptTable) (s3v : Int) : Int :=
  let c := get_local_checkpoint tbl
  if c ≠ 0 then c else s3v

/-! ### Proleptic Gregorian calendar (model of Python `datetime`) -/

/-- Gregorian leap-year rule. -/
def isLeap (y : Int) : Bool := (y % 4 == 0 && y % 100 != 0) || y % 400 == 0

def daysInYear (y : Int) : Nat := if isLeap y then 366 else 365

/-- Year walk: starting at year `y` with `r` days remaining, subtract whole
years until fewer than a year's days remain.  The fuel is the day count
itself, which `yearOfAux_spec` shows is always sufficient. -/
def yearOfAux : Nat → Int → Nat → Int × Nat
  | 0, y, r => (y, r)
  | fuel + 1, y, r =>
    if r < daysInYear y then (y, r) else yearOfAux fuel (y + 1) (r - daysInYear y)

def yearOf (y : Int) (r : Nat) : Int × Nat := yearOfAux r y r

def monthDays (leap : Bool) : List Nat :=
  [31, if leap then 29 else 28, 31, 30, 31, 30, 31, 31, 30, 31, 30, 31]

/-- Month walk: consume month lengths until the remaining day index falls
inside a month. -/
def monthOf : List Nat → Nat → Nat → Nat × Nat
  | [], m, r => (m, r)
  | len :: rest, m, r => if r < len then (m, r) else monthOf rest (m + 1) (r - len)

/-- Civil date (year, month, day) of day number `n` counted from 1970-01-01. -/
def dateOfDaysRec (n : Nat) : Int × Int × Int :=
  let p := yearOf 1970 n
  let q := monthOf (monthDays (isLeap p.1)) 1 p.2
  (p.1, (q.1 : Int), (q.2 : Int) + 1)

/-- Lexicographic strict order on civil-date triples. -/
def DLt (a b : Int × Int × Int) : Prop :=
  a.1 < b.1 ∨ (a.1 = b.1 ∧ (a.2.1 < b.2.1 ∨ (a.2.1 = b.2.1 ∧ a.2.2 < b.2.2)))

/-- Day count accumulated over the civil years `y ≤ · < Y` (proof device). -/
def daysBetween (y Y : Int) : Nat :=
  if y < Y then daysInYear y + daysBetween (y + 1) Y else 0
termination_by (Y - y).toNat
decreasing_by omega

/-- A civil timestamp: the fields of a `"YYYY-MM-DD HH:MM:SS"` string. -/
structure CivilT where
  year : Int
  month : Int
  day : Int
  hour : Int
  minute : Int
  second : Int
deriving DecidableEq

/-- Civil fields of epoch second `e` in the fixed zone at `off` seconds east of
UTC (model of `datetime.fromtimestamp(e, tz)`); meaningful for `0 ≤ e + off`. -/
def civilOfEpoch (off e : Int) : CivilT :=
  let z := e + off
  let d := dateOfDaysRec (z / 86400).toNat
  let r := (z % 86400).toNat
  ⟨d.1, d.2.1, d.2.2, ((r / 3600 : Nat) : Int), (((r % 3600) / 60 : Nat) : Int),
    ((r % 60 : Nat) : Int)⟩

/-- UTC offset (in seconds) of `ZoneInfo("Asia/Seoul")` at epoch instant `e`:
+9 h, except +10 h during the published 1987-88 DST periods
(1987-05-09T17:00Z to 1987-10-10T17:00Z and 1988-05-07T17:00Z to
1988-10-08T17:00Z).  Faithful for `0 ≤ e`; the zone's pre-1970 offsets are not
modelled, and every theorem that depends on this restricts its instants
accordingly. -/
def seoulOffset (e : Int) : Int :=
  if (547578000 ≤ e ∧ e < 560883600) ∨ (579027600 ≤ e ∧ e < 592333200) then 36000
  else 32400

/-- Civil fields of epoch second `e` in `ZoneInfo("Asia/Seoul")` (the reader's
`KST`). -/
def civilOfEpochSeoul (e : Int) : CivilT := civilOfEpoch (seoulOffset e) e

/-- UTC offset chosen by `ZoneInfo("Asia/Seoul")` for a wall-clock time given
as seconds-as-if-UTC, under PEP 495 fold 0: +10 h for wall times from
1987-05-10T03:00 to 1987-10-11T03:00 and from 1988-05-08T03:00 to
1988-10-09T03:00, +9 h otherwise (wall times in the spring-forward gap take
the pre-transition +9 h and ambiguous fall-back times the pre-transition
+10 h, exactly as fold 0 prescribes).  Faithful for civil years from 1962 on;
the zone's earlier offsets are not modelled, and theorems that depend on this
restrict the year accordingly. -/
def seoulOffsetOfCivil (c : Int) : Int :=
  if (547614000 ≤ c ∧ c < 560919600) ∨ (579063600 ≤ c ∧ c < 592369200) then 36000
  else 32400

/-- Lexicographic strict order on civil timestamps; on the fixed-width
zero-padded `"YYYY-MM-DD HH:MM:SS"` representation this is exactly SQLite's
text comparison of the stored strings. -/
def civilLtB (a b : CivilT) : Bool :=
  decide (a.year < b.year) ||
    (a.year == b.year &&
      (decide (a.month < b.month) ||
        (a.month == b.month &&
          (decide (a.day < b.day) ||
            (a.day == b.day &&
              (decide (a.hour < b.hour) ||
                (a.hour == b.hour &&
                  (decide (a.minute < b.minute) ||
                    (a.minute == b.minute && decide (a.second < b.second))))))))))

/-- Lexicographic `≤` on civil timestamps (`ts >= start` in the SQL text). -/
def civilLeB (a b : CivilT) : Bool := civilLtB a b || a == b

/-! ### Text rendering of timestamps -/

def digitChar (n : Nat) : Char := Char.ofNat (48 + n)

def pad2 (n : Nat) : String := ⟨[digitChar (n / 10 % 10), digitChar (n % 10)]⟩

def pad4 (n : Nat) : String :=
  ⟨[digitChar (n / 1000 % 10), digitChar (n / 100 % 10), digitChar (n / 10 % 10),
    digitChar (n % 10)]⟩

/-- `strftime("%Y-%m-%d %H:%M:%S")` of a civil timestamp. -/
def fmtCivil (c : CivilT) : String :=
  pad4 c.year.toNat ++ "-" ++ pad2 c.month.toNat ++ "-" ++ pad2 c.day.toNat ++ " " ++
    pad2 c.hour.toNat ++ ":" ++ pad2 c.minute.toNat ++ ":" ++ pad2 c.second.toNat

/-- `epoch_to_utc_text` of the source. -/
def epoch_to_utc_text (e : Int) : String := fmtCivil (civilOfEpoch 0 e)

/-- `epoch_to_kst_text` of the source; its `KST` is `ZoneInfo("Asia/Seoul")`. -/
def epoch_to_kst_text (e : Int) : String := fmtCivil (civilOfEpochSeoul e)

/-- Writer side (`mqtt_to_sqlite.to_kst_str_from_any`, numeric branch): a
numeric epoch timestamp is rendered as a civil string with
`strftime("%Y-%m-%d %H:%M:%S")` in the writer's `KST`, which is the genuinely
fixed `timezone(timedelta(hours=9))` — a constant +32400 s, with no DST ever.
(The string branches normalise to the same format; the millisecond branch
first divides by 1000.) -/
def to_kst_str_from_any (e : Int) : String := fmtCivil (civilOfEpoch 32400 e)

/-- Reader side (`fetch_utc_window_aggregate` lines 112-113): a UTC window
bound is converted through `ZoneInfo("Asia/Seoul")` to its civil string before
being bound into the SQL range condition. -/
def window_bound_kst_text (e : Int) : String := fmtCivil (civilOfEpochSeoul e)

/-- The SQL range condition `ts >= start_kst AND ts < end_kst` of
`fetch_utc_window_aggregate`, applied to the stored row whose `ts` column was
written by the ingest for instant `t`: the bounds are the reader's
`Asia/Seoul` renderings, the row value is the writer's fixed +9 h rendering,
compared as fixed-width text. -/
def ts_in_window (start_utc end_utc t : Int) : Bool :=
  civilLeB (civilOfEpochSeoul start_utc) (civilOfEpoch 32400 t) &&
    civilLtB (civilOfEpoch 32400 t) (civilOfEpochSeoul end_utc)

/-! ### S3 partition discovery (sqlite_to_iotcore lines 66-93) -/

/-- Days from 1970-01-01 to civil date `(y, m, d)` (era decomposition of the
proleptic Gregorian calendar); models the day-count part of
`datetime(y, m, d, ...).timestamp()`. -/
def daysFromCivil (y m d : Int) : Int :=
  let y2 := y - (if m ≤ 2 then 1 else 0)
  let era := (if 0 ≤ y2 then y2 else y2 - 399) / 400
  let yoe := y2 - era * 400
  let doy := (153 * ((m + 9) % 12) + 2) / 5 + d - 1
  let doe := yoe * 365 + yoe / 4 - yoe / 100 + doy
  era * 146097 + doe - 719468

def daysInMonthI (y mo : Int) : Int :=
  if mo = 2 then (if isLeap y then 29 else 28)
  else if mo = 4 ∨ mo = 6 ∨ mo = 9 ∨ mo = 11 then 30
  else 31

/-- Argument validation performed by the `datetime` constructor; out-of-range
parts raise `ValueError`, which `get_latest_s3_window_utc` catches and skips. -/
def validDate (y mo d h mi : Int) : Bool :=
  decide (1 ≤ y) && decide (y ≤ 9999) && decide (1 ≤ mo) && decide (mo ≤ 12) &&
    decide (1 ≤ d) && decide (d ≤ daysInMonthI y mo) && decide (0 ≤ h) &&
    decide (h ≤ 23) && decide (0 ≤ mi) && decide (mi ≤ 59)

/-- `s3_part_to_end_utc`: interpret the encoded parts as a civil time in the
partition zone (UTC, or `ZoneInfo("Asia/Seoul")` when `S3_PARTITION_TZ` is not
`"UTC"`), add five minutes of wall-clock time, and return the UTC epoch
second.  Aware datetime arithmetic adds to the civil fields, and
`.astimezone(UTC).timestamp()` then subtracts the zone's fold-0 offset of the
resulting wall time.  (For civil years before 1962 — whose window ends are
hundreds of millions of seconds negative and so can never affect the running
maximum, which starts at 0 — the zone's historical offsets are not
modelled.) -/
def s3_part_to_end_utc (tzUTC : Bool) (y mo d h m5 : Int) : Int :=
  let wall := daysFromCivil y mo d * 86400 + h * 3600 + m5 * 60 + 300
  if tzUTC then wall else wall - seoulOffsetOfCivil wall

/-- Follows the spec's words, for comparison: the spec calls the non-UTC
partition zone "a configured fixed zone" of +9 h, so this converts the bucket
end through a constant +9 h.  The source's `s3_part_to_end_utc`, which goes
through `ZoneInfo("Asia/Seoul")`, diverges from it on the 1987-88 DST dates. -/
def s3_part_to_end_fixed_kst_spec (y mo d h m5 : Int) : Int :=
  daysFromCivil y mo d * 86400 + h * 3600 + m5 * 60 + 300 - 32400

/-- `str.split(sep)` on a character separator, over the character list. -/
def splitOnChar (sep : Char) : List Char → List (List Char)
  | [] => [[]]
  | c :: rest =>
    let r := splitOnChar sep rest
    if c == sep then [] :: r else (c :: r.headD []) :: r.tail

/-- Digit-string value; `none` on the empty string or any non-digit. -/
def digitsVal : List Char → Option Nat
  | [] => none
  | l => go l 0
where
  go : List Char → Nat → Option Nat
    | [], acc => some acc
    | c :: rest, acc =>
      if c.isDigit then go rest (acc * 10 + (c.toNat - 48)) else none

/-- Python `int(str)`: optional sign then decimal digits. -/
def parseIntPy (l : List Char) : Option Int :=
  match l with
  | '-' :: rest => (digitsVal rest).map (fun n => -(n : Int))
  | '+' :: rest => (digitsVal rest).map (fun n => (n : Int))
  | _ => (digitsVal l).map (fun n => (n : Int))

/-- Per-key parsing step of `get_latest_s3_window_utc`: keep keys with a
recognised extension, take the text after `=` in each `name=value` path
segment, require at least five such parts, parse the first five as integers
and build the window end; any parse or constructor failure yields `none` and
the key is skipped. -/
def parse_s3_key (tzUTC : Bool) (key : String) : Option Int :=
  let cs := key.data
  if !([".json", ".parquet", ".gz", ".gzip"].any fun ext => ext.data.isSuffixOf cs) then
    none
  else
    let parts := ((splitOnChar '/' cs).filter fun p => p.contains '=').map
      fun p => (splitOnChar '=' p).getLastD []
    if parts.length < 5 then none
    else
      match parseIntPy (parts.getD 0 []), parseIntPy (parts.getD 1 []),
          parseIntPy (parts.getD 2 []), parseIntPy (parts.getD 3 []),
          parseIntPy (parts.getD 4 []) with
      | some y, some mo, some d, some h, some m5 =>
        if validDate y mo d h m5 then some (s3_part_to_end_utc tzUTC y mo d h m5)
        else none
      | _, _, _, _, _ => none

/-- `get_latest_s3_window_utc`: `0` when the listing itself fails; otherwise
the running maximum (starting from `0`) of the window ends of all parsed keys.
Returning the fold directly coincides with the source's
`if latest: return latest` / `return 0` ending because the fold never goes
below its initial `0`. -/
def get_latest_s3_window_utc (tzUTC listingOk : Bool) (keys : List String) : Int :=
  if listingOk then
    keys.foldl
      (fun latest k =>
        match parse_s3_key tzUTC k with
        | some e => max latest e
        | none => latest)
      0
  else 0

/-! ### Publish loop (sqlite_to_iotcore.run_incremental) -/

/-- One grouped row of the aggregate query (per device). -/
structure Row where
  dev : String
  n : Int
  temp_avg : Option ℚ := none
  temp_min : Option ℚ := none
  temp_max : Option ℚ := none
  t_sumsq : Option ℚ := none
  hum_avg : Option ℚ := none
  hum_min : Option ℚ := none
  hum_max : Option ℚ := none
  h_sumsq : Option ℚ := none
  lux_avg : Option ℚ := none
  gas_avg : Option ℚ := none
  gas_min : Option ℚ := none
  gas_max : Option ℚ := none
  g_sumsq : Option ℚ := none
  pm_avg : Option ℚ := none
  pm_min : Option ℚ := none
  pm_max : Option ℚ := none
  pm_sumsq : Option ℚ := none

/-- A row with only the device and count populated (the SQL aggregates are
NULL when every sampled value is NULL). -/
def mkRow (d : String) (n : Int) : Row := { dev := d, n := n }

/-- The configured room identifier (default of the `ROOM` variable). -/
def ROOM : String := "room-306"

/-- The trailing digit run of the room identifier (`re.search(r"(\d+)$", ROOM)`),
or `"unknown"` when the identifier does not end in a digit. -/
def room_p_of (room : String) : String :=
  let ds := ((room.data.reverse.takeWhile fun c => c.isDigit)).reverse
  if ds.isEmpty then "unknown" else ⟨ds⟩

/-- One outbound MQTT message (the JSON payload fields of lines 234-247). -/
structure Payload where
  device : String
  room : String
  window_start : String
  window_end : String
  window_start_kst : String
  window_end_kst : String
  count : Int
  temp_avg : Option ℚ
  temp_max : Option ℚ
  temp_min : Option ℚ
  temp_std : Option ℚ
  hum_avg : Option ℚ
  hum_max : Option ℚ
  hum_min : Option ℚ
  hum_std : Option ℚ
  lux_avg : Option ℚ
  gas_avg : Option ℚ
  gas_max : Option ℚ
  gas_min : Option ℚ
  gas_std : Option ℚ
  pm_avg : Option ℚ
  pm_max : Option ℚ
  pm_min : Option ℚ
  pm_std : Option ℚ
  year : String
  month : String
  day : String
  hour : String
  min5 : String
  room_p : String

/-- Assemble the payload for one device row of the window
`[start_utc, end_utc)`; the partition fields come from the KST civil time of
the window start. -/
def mkPayload (start_utc end_utc : Int) (r : Row) : Payload :=
  let kst := civilOfEpochSeoul start_utc
  { device := r.dev
    room := ROOM
    window_start := epoch_to_utc_text start_utc
    window_end := epoch_to_utc_text end_utc
    window_start_kst := epoch_to_kst_text start_utc
    window_end_kst := epoch_to_kst_text end_utc
    count := r.n
    temp_avg := r.temp_avg
    temp_max := r.temp_max
    temp_min := r.temp_min
    temp_std := calc_std r.temp_avg r.t_sumsq (some r.n)
    hum_avg := r.hum_avg
    hum_max := r.hum_max
    hum_min := r.hum_min
    hum_std := calc_std r.hum_avg r.h_sumsq (some r.n)
    lux_avg := r.lux_avg
    gas_avg := r.gas_avg
    gas_max := r.gas_max
    gas_min := r.gas_min
    gas_std := calc_std r.gas_avg r.g_sumsq (some r.n)
    pm_avg := r.pm_avg
    pm_max := r.pm_max
    pm_min := r.pm_min
    pm_std := calc_std r.pm_avg r.pm_sumsq (some r.n)
    year := pad4 kst.year.toNat
    month := pad2 kst.month.toNat
    day := pad2 kst.day.toNat
    hour := pad2 kst.hour.toNat
    min5 := pad2 (kst.minute.toNat / 5 * 5)
    room_p := room_p_of ROOM }

/-- In-memory loop state: the resume anchor `last_utc_end` and the rows of the
checkpoint table. -/
structure LoopState where
  lastEnd : Int
  tbl : CkptTable

/-- Environment input of one loop iteration: the wall clock, the outcome of
the aggregate query (`Except.error` models a raised exception), and the index
of the first `client.publish` call that raises, if any. -/
structure StepIn where
  now : Int
  fetchRes : Except Unit (List Row)
  pubFail : Option Nat

/-- Observable outcome of one loop iteration. -/
structure StepResult where
  state : LoopState
  queried : Option (Int × Int)
  published : List Payload
  fetched : Bool
  committed : Bool
  idle : Bool
  errored : Bool
  brk : Bool

/-- One iteration of the `while True` loop (lines 197-254): compare the next
window end against the floored clock; when not due, idle (break in one-pass
mode); otherwise run the aggregate query, then either commit an empty window,
or publish each row and commit, an exception at any point leaving all state
untouched and ending the run. -/
def loopStep (runForever : Bool) (now : Int) (fetchRes : Except Unit (List Row))
    (pubFail : Option Nat) (st : LoopState) : StepResult :=
  let target_end := floor_to_five_minutes_utc now
  let next_end := st.lastEnd + 300
  if target_end < next_end then
    ⟨st, none, [], false, false, true, false, !runForever⟩
  else
    let start_utc := next_end - 300
    match fetchRes with
    | Except.error _ => ⟨st, some (start_utc, next_end), [], true, false, false, true, true⟩
    | Except.ok rows =>
      if rows.isEmpty then
        ⟨⟨next_end, update_local_checkpoint next_end⟩, some (start_utc, next_end), [],
          true, true, false, false, false⟩
      else
        match pubFail with
        | some k =>
          if k < rows.length then
            ⟨st, some (start_utc, next_end), (rows.take k).map (mkPayload start_utc next_end),
              true, false, false, true, true⟩
          else
            ⟨⟨next_end, update_local_checkpoint next_end⟩, some (start_utc, next_end),
              rows.map (mkPayload start_utc next_end), true, true, false, false, false⟩
        | none =>
          ⟨⟨next_end, update_local_checkpoint next_end⟩, some (start_utc, next_end),
            rows.map (mkPayload start_utc next_end), true, true, false, false, false⟩

/-- Run the loop over a list of environment inputs, stopping when an iteration
breaks (one-pass mode caught up) or raises; returns the final state and the
values written to the checkpoint, in order. -/
def runSteps (runForever : Bool) (ins : List StepIn) (st : LoopState) :
    LoopState × List Int :=
  match ins with
  | [] => (st, [])
  | i :: rest =>
    let r := loopStep runForever i.now i.fetchRes i.pubFail st
    let w := if r.committed then [r.state.lastEnd] else []
    if r.errored || r.brk then (r.state, w)
    else
      let k := runSteps runForever rest r.state
      (k.1, w ++ k.2)

/-! ## Helper lemmas -/

theorem daysInYear_pos (y : Int) : 0 < daysInYear y := by
  unfold daysInYear; split <;> omega

theorem daysInYear_ge (y : Int) : 365 ≤ daysInYear y := by
  unfold daysInYear; split <;> omega

theorem daysBetween_eq_zero (y : Int) : daysBetween y y = 0 := by
  rw [daysBetween]; simp

theorem yearOfAux_spec (fuel : Nat) (y : Int) (r : Nat) (hf : r ≤ fuel) :
    (yearOfAux fuel y r).2 < daysInYear (yearOfAux fuel y r).1 ∧
      y ≤ (yearOfAux fuel y r).1 ∧
      daysBetween y (yearOfAux fuel y r).1 + (yearOfAux fuel y r).2 = r := by
  induction fuel generalizing y r with
  | zero =>
    have hr : r = 0 := by omega
    subst hr
    simp only [yearOfAux]
    exact ⟨daysInYear_pos y, le_refl y, by simp [daysBetween_eq_zero]⟩
  | succ fuel ih =>
    simp only [yearOfAux]
    split
    · refine ⟨by assumption, le_refl y, ?_⟩
      simp [daysBetween_eq_zero]
    · rename_i h
      have hge := daysInYear_ge y
      have hf' : r - daysInYear y ≤ fuel := by omega
      obtain ⟨h1, h2, h3⟩ := ih (y + 1) (r - daysInYear y) hf'
      refine ⟨h1, by omega, ?_⟩
      rw [daysBetween, if_pos (by omega : y < (yearOfAux fuel (y + 1) (r - daysInYear y)).1)]
      omega

theorem yearOf_spec (y : Int) (r : Nat) :
    (yearOf y r).2 < daysInYear (yearOf y r).1 ∧ y ≤ (yearOf y r).1 ∧
      daysBetween y (yearOf y r).1 + (yearOf y r).2 = r :=
  yearOfAux_spec r y r (le_refl r)

theorem daysBetween_succ (y Y : Int) (h : y ≤ Y) :
    daysBetween y (Y + 1) = daysBetween y Y + daysInYear Y := by
  rcases eq_or_lt_of_le h with heq | hlt
  · subst heq
    have e1 : daysBetween y (y + 1) = daysInYear y + daysBetween (y + 1) (y + 1) := by
      rw [daysBetween, if_pos (by omega : y < y + 1)]
    have e2 := daysBetween_eq_zero (y + 1)
    have e3 := daysBetween_eq_zero y
    omega
  · have hrec := daysBetween_succ (y + 1) Y (by omega)
    have e1 : daysBetween y (Y + 1) = daysInYear y + daysBetween (y + 1) (Y + 1) := by
      rw [daysBetween, if_pos (by omega : y < Y + 1)]
    have e2 : daysBetween y Y = daysInYear y + daysBetween (y + 1) Y := by
      rw [daysBetween, if_pos hlt]
    omega
termination_by (Y - y).toNat
decreasing_by omega

theorem daysBetween_mono (y Y1 Y2 : Int) (h1 : y ≤ Y1) (h2 : Y1 < Y2) :
    daysBetween y Y1 + daysInYear Y1 ≤ daysBetween y Y2 := by
  rcases eq_or_lt_of_le (by omega : Y1 + 1 ≤ Y2) with heq | hlt
  · rw [← heq, daysBetween_succ y Y1 h1]
  · have hrec := daysBetween_mono y Y1 (Y2 - 1) h1 (by omega)
    have e1 : daysBetween y Y2 = daysBetween y (Y2 - 1) + daysInYear (Y2 - 1) := by
      have := daysBetween_succ y (Y2 - 1) (by omega)
      simpa using this
    omega
termination_by (Y2 - Y1).toNat
decreasing_by omega

theorem monthOf_fst_ge (ms : List Nat) (m r : Nat) : m ≤ (monthOf ms m r).1 := by
  induction ms generalizing m r with
  | nil => simp [monthOf]
  | cons len rest ih =>
    simp only [monthOf]
    split
    · exact le_refl m
    · exact le_trans (by omega) (ih (m + 1) (r - len))

theorem monthOf_mono (ms : List Nat) (m r1 r2 : Nat) (h : r1 < r2) :
    (monthOf ms m r1).1 < (monthOf ms m r2).1 ∨
      ((monthOf ms m r1).1 = (monthOf ms m r2).1 ∧ (monthOf ms m r1).2 < (monthOf ms m r2).2) := by
  induction ms generalizing m r1 r2 with
  | nil => exact Or.inr ⟨rfl, h⟩
  | cons len rest ih =>
    simp only [monthOf]
    by_cases h1 : r1 < len
    · by_cases h2 : r2 < len
      · simp only [if_pos h1, if_pos h2]
        exact Or.inr ⟨trivial, h⟩
      · simp only [if_pos h1, if_neg h2]
        exact Or.inl (lt_of_lt_of_le (by omega) (monthOf_fst_ge rest (m + 1) (r2 - len)))
    · have h2 : ¬ r2 < len := by omega
      simp only [if_neg h1, if_neg h2]
      exact ih (m + 1) (r1 - len) (r2 - len) (by omega)

theorem dateOfDaysRec_mono (n1 n2 : Nat) (h : n1 < n2) :
    DLt (dateOfDaysRec n1) (dateOfDaysRec n2) := by
  obtain ⟨hs1, hy1, hd1⟩ := yearOf_spec 1970 n1
  obtain ⟨hs2, hy2, hd2⟩ := yearOf_spec 1970 n2
  simp only [dateOfDaysRec, DLt]
  rcases lt_trichotomy (yearOf 1970 n1).1 (yearOf 1970 n2).1 with hY | hY | hY
  · exact Or.inl hY
  · refine Or.inr ⟨hY, ?_⟩
    have hdB : daysBetween 1970 (yearOf 1970 n1).1 = daysBetween 1970 (yearOf 1970 n2).1 := by
      rw [hY]
    have hr : (yearOf 1970 n1).2 < (yearOf 1970 n2).2 := by omega
    have hmo := monthOf_mono (monthDays (isLeap (yearOf 1970 n1).1)) 1
      (yearOf 1970 n1).2 (yearOf 1970 n2).2 hr
    rw [hY] at hmo ⊢
    rcases hmo with h' | ⟨h1', h2'⟩
    · exact Or.inl (by exact_mod_cast h')
    · exact Or.inr ⟨by exact_mod_cast h1', by omega⟩
  · exfalso
    have := daysBetween_mono 1970 (yearOf 1970 n2).1 (yearOf 1970 n1).1 hy2 hY
    omega

theorem civilLtB_iff (a b : CivilT) :
    civilLtB a b = true ↔
      (a.year < b.year ∨ (a.year = b.year ∧
        (a.month < b.month ∨ (a.month = b.month ∧
          (a.day < b.day ∨ (a.day = b.day ∧
            (a.hour < b.hour ∨ (a.hour = b.hour ∧
              (a.minute < b.minute ∨ (a.minute = b.minute ∧
                a.second < b.second)))))))))) := by
  simp [civilLtB, Bool.or_eq_true, Bool.and_eq_true, decide_eq_true_eq, beq_iff_eq]

theorem civilLtB_of_dlt (a b : CivilT)
    (h : DLt (a.year, a.month, a.day) (b.year, b.month, b.day)) :
    civilLtB a b = true := by
  rw [civilLtB_iff]
  simp only [DLt] at h
  tauto

theorem civilLtB_irrefl (a : CivilT) : civilLtB a a = false := by
  by_contra h
  have := (civilLtB_iff a a).mp (by revert h; cases civilLtB a a <;> simp)
  omega

theorem civilLtB_asymm (a b : CivilT) (h : civilLtB a b = true) : civilLtB b a = false := by
  by_contra h2
  have hab := (civilLtB_iff a b).mp h
  have hba := (civilLtB_iff b a).mp (by revert h2; cases civilLtB b a <;> simp)
  omega

/-- Strict monotonicity of the epoch-to-civil conversion: a smaller instant has
a lexicographically smaller civil rendering (for instants at or after the
epoch in the target zone). -/
theorem civilOfEpoch_lt (off a b : Int) (ha : 0 ≤ a + off) (hb : 0 ≤ b + off)
    (hab : a < b) :
    civilLtB (civilOfEpoch off a) (civilOfEpoch off b) = true := by
  have hdiv : (a + off) / 86400 ≤ (b + off) / 86400 := by
    apply Int.ediv_le_ediv (by omega) (by omega)
  have hdnn : 0 ≤ (a + off) / 86400 := Int.ediv_nonneg ha (by omega)
  rcases eq_or_lt_of_le hdiv with heq | hlt
  · -- same civil day: compare the seconds-of-day fields
    have hmod : (a + off) % 86400 < (b + off) % 86400 := by omega
    have hmodnn : 0 ≤ (a + off) % 86400 := Int.emod_nonneg _ (by omega)
    rw [civilLtB_iff]
    simp only [civilOfEpoch, heq]
    have hr : ((a + off) % 86400).toNat < ((b + off) % 86400).toNat := by omega
    right
    refine ⟨by trivial, ?_⟩
    right
    refine ⟨by trivial, ?_⟩
    right
    refine ⟨by trivial, ?_⟩
    omega
  · -- the civil date advances
    have hn : ((a + off) / 86400).toNat < ((b + off) / 86400).toNat := by omega
    exact civilLtB_of_dlt _ _ (by
      simpa [civilOfEpoch] using dateOfDaysRec_mono _ _ hn)

theorem civilOfEpoch_lt_iff (off a b : Int) (ha : 0 ≤ a + off) (hb : 0 ≤ b + off) :
    civilLtB (civilOfEpoch off a) (civilOfEpoch off b) = true ↔ a < b := by
  constructor
  · intro h
    rcases lt_trichotomy a b with hlt | heq | hgt
    · exact hlt
    · subst heq
      rw [civilLtB_irrefl] at h
      exact absurd h (by simp)
    · have := civilOfEpoch_lt off b a hb ha hgt
      rw [civilLtB_asymm _ _ this] at h
      exact absurd h (by simp)
  · exact civilOfEpoch_lt off a b ha hb

theorem civilOfEpoch_le_iff (off a b : Int) (ha : 0 ≤ a + off) (hb : 0 ≤ b + off) :
    civilLeB (civilOfEpoch off a) (civilOfEpoch off b) = true ↔ a ≤ b := by
  unfold civilLeB
  rw [Bool.or_eq_true, civilOfEpoch_lt_iff off a b ha hb, beq_iff_eq]
  constructor
  · rintro (h | h)
    · omega
    · -- equal civil renderings force equal instants
      rcases lt_trichotomy a b with hlt | heq | hgt
      · omega
      · omega
      · have := civilOfEpoch_lt off b a hb ha hgt
        rw [h] at this
        rw [civilLtB_irrefl] at this
        exact absurd this (by simp)
  · intro h
    rcases eq_or_lt_of_le h with heq | hlt
    · exact Or.inr (by rw [heq])
    · exact Or.inl hlt

/-- The SQL range condition, evaluated on the writer's rendering of instant
`t`, holds exactly when `t` lies in the half-open window — provided both
window bounds fall where `Asia/Seoul` agrees with the writer's fixed +9 h
(i.e. outside the 1987-88 DST periods), so that the reader's bound renderings
coincide with the writer's. -/
theorem ts_in_window_iff (s e t : Int) (hs : 0 ≤ s) (he : 0 ≤ e) (ht : 0 ≤ t)
    (hso : seoulOffset s = 32400) (heo : seoulOffset e = 32400) :
    ts_in_window s e t = true ↔ s ≤ t ∧ t < e := by
  unfold ts_in_window civilOfEpochSeoul
  rw [hso, heo, Bool.and_eq_true, civilOfEpoch_le_iff 32400 s t (by omega) (by omega),
    civilOfEpoch_lt_iff 32400 t e (by omega) (by omega)]


/-- `roundSqrt4 v` equals `m / 10⁴` for a natural `m` whose doubled value
brackets `2·√v·10⁴` within one: the rounded value differs from the exact square
root by at most half of the last retained decimal place. -/
theorem roundSqrt4_bracket (v : ℚ) (hv : 0 ≤ v) :
    ∃ m : ℕ, roundSqrt4 v = (m : ℚ) / 10000 ∧
      (m = 0 ∨ (2 * (m : ℚ) - 1) ^ 2 ≤ 4 * v * 100000000) ∧
      4 * v * 100000000 < (2 * (m : ℚ) + 1) ^ 2 := by
  set x : ℚ := 4 * v * 100000000 with hx
  have hxnn : 0 ≤ x := by positivity
  have hflnn : 0 ≤ ⌊x⌋ := Int.le_floor.mpr (by exact_mod_cast hxnn)
  set M : ℕ := (⌊x⌋).toNat with hM
  set s : ℕ := Nat.sqrt M with hs
  have hMx : (M : ℚ) ≤ x := by
    have h1 : ((⌊x⌋ : ℤ) : ℚ) ≤ x := Int.floor_le x
    have h2 : (M : ℤ) = ⌊x⌋ := Int.toNat_of_nonneg hflnn
    have h3 : ((M : ℤ) : ℚ) = ((⌊x⌋ : ℤ) : ℚ) := by rw [h2]
    push_cast at h3
    linarith
  have hxM : x < (M : ℚ) + 1 := by
    have h1 : x < ((⌊x⌋ : ℤ) : ℚ) + 1 := Int.lt_floor_add_one x
    have h2 : (M : ℤ) = ⌊x⌋ := Int.toNat_of_nonneg hflnn
    have h3 : ((M : ℤ) : ℚ) = ((⌊x⌋ : ℤ) : ℚ) := by rw [h2]
    push_cast at h3
    linarith
  have hsqN : s * s ≤ M := by
    have := Nat.sqrt_le' M
    calc s * s = Nat.sqrt M ^ 2 := by rw [hs]; ring
      _ ≤ M := this
  have hupN : M < (s + 1) * (s + 1) := by
    simpa [Nat.succ_eq_add_one] using Nat.lt_succ_sqrt M
  refine ⟨(s + 1) / 2, rfl, ?_, ?_⟩
  · by_cases hz : (s + 1) / 2 = 0
    · exact Or.inl hz
    · right
      have hn1 : 1 ≤ (s + 1) / 2 := by omega
      have h2n1 : 2 * ((s + 1) / 2) - 1 ≤ s := by omega
      have c0 : (1 : ℚ) ≤ (((s + 1) / 2 : ℕ) : ℚ) := by exact_mod_cast hn1
      have c1 : ((2 * ((s + 1) / 2) - 1 : ℕ) : ℚ) ≤ (s : ℚ) := by exact_mod_cast h2n1
      have c2 : ((2 * ((s + 1) / 2) - 1 : ℕ) : ℚ) = 2 * (((s + 1) / 2 : ℕ) : ℚ) - 1 := by
        rw [Nat.cast_sub (by omega : 1 ≤ 2 * ((s + 1) / 2))]
        push_cast
        ring
      have c3 : ((s * s : ℕ) : ℚ) ≤ ((M : ℕ) : ℚ) := by exact_mod_cast hsqN
      push_cast at c3
      rw [c2] at c1
      nlinarith [c1, c3, hMx, c0]
  · have hs2n : s ≤ 2 * ((s + 1) / 2) := by omega
    have c1 : (s : ℚ) ≤ 2 * (((s + 1) / 2 : ℕ) : ℚ) := by exact_mod_cast hs2n
    have c2 : ((M + 1 : ℕ) : ℚ) ≤ (((s + 1) * (s + 1) : ℕ) : ℚ) := by exact_mod_cast hupN
    push_cast at c2
    have csnn : (0 : ℚ) ≤ (s : ℚ) := by positivity
    nlinarith [hxM, c1, c2, csnn]

theorem get_latest_foldl (tz : Bool) (keys : List String) (init : Int) :
    keys.foldl
        (fun latest k =>
          match parse_s3_key tz k with
          | some e => max latest e
          | none => latest)
        init =
      (keys.filterMap (parse_s3_key tz)).foldl max init := by
  induction keys generalizing init with
  | nil => rfl
  | cons k rest ih =>
    simp only [List.foldl, List.filterMap]
    cases parse_s3_key tz k <;> simp [ih]

theorem loopStep_lastEnd (rf : Bool) (now : Int) (fr : Except Unit (List Row))
    (pf : Option Nat) (st : LoopState) :
    ((loopStep rf now fr pf st).committed = true →
      (loopStep rf now fr pf st).state.lastEnd = st.lastEnd + 300) ∧
    ((loopStep rf now fr pf st).committed = false →
      (loopStep rf now fr pf st).state = st) := by
  by_cases hidle : floor_to_five_minutes_utc now < st.lastEnd + 300
  · simp [loopStep, hidle]
  · cases fr with
    | error e => simp [loopStep, hidle]
    | ok rows =>
      by_cases hrows : rows.isEmpty
      · simp [loopStep, hidle, hrows]
      · cases pf with
        | none => simp [loopStep, hidle, hrows]
        | some k =>
          by_cases hk : k < rows.length
          · simp [loopStep, hidle, hrows, hk]
          · simp [loopStep, hidle, hrows, hk]

theorem runSteps_chain (rf : Bool) (ins : List StepIn) (st : LoopState) :
    List.Chain (fun a b => b = a + 300) st.lastEnd (runSteps rf ins st).2 := by
  induction ins generalizing st with
  | nil => exact List.Chain.nil
  | cons i rest ih =>
    simp only [runSteps]
    obtain ⟨hc, hnc⟩ := loopStep_lastEnd rf i.now i.fetchRes i.pubFail st
    cases hcom : (loopStep rf i.now i.fetchRes i.pubFail st).committed
    · have hst := hnc hcom
      split
      · simp [hcom, List.Chain.nil]
      · simp only [hcom, Bool.false_eq_true, if_false, List.nil_append]
        rw [hst]
        exact ih st
    · have hle := hc hcom
      split
      · simp only [hcom, if_true, List.Chain]
        exact List.Chain.cons (by omega) List.Chain.nil
      · simp only [hcom, if_true, List.singleton_append]
        exact List.Chain.cons (by omega) (ih (loopStep rf i.now i.fetchRes i.pubFail st).state)


theorem loopStep_queried (rf : Bool) (now : Int) (fr : Except Unit (List Row))
    (pf : Option Nat) (st : LoopState) (w : Int × Int)
    (h : (loopStep rf now fr pf st).queried = some w) :
    w = (st.lastEnd, st.lastEnd + 300) := by
  revert h
  by_cases hidle : floor_to_five_minutes_utc now < st.lastEnd + 300
  · simp [loopStep, hidle]
  · cases fr with
    | error e =>
      simp only [loopStep, if_neg hidle]
      intro h
      simpa using h.symm
    | ok rows =>
      by_cases hrows : rows.isEmpty
      · simp only [loopStep, if_neg hidle, if_pos hrows]
        intro h
        simpa using h.symm
      · cases pf with
        | none =>
          simp only [loopStep, if_neg hidle, if_neg hrows]
          intro h
          simpa using h.symm
        | some k =>
          by_cases hk : k < rows.length
          · simp only [loopStep, if_neg hidle, if_neg hrows, if_pos hk]
            intro h
            simpa using h.symm
          · simp only [loopStep, if_neg hidle, if_neg hrows, if_neg hk]
            intro h
            simpa using h.symm

theorem loopStep_idle_facts (rf : Bool) (now : Int) (fr : Except Unit (List Row))
    (pf : Option Nat) (st : LoopState)
    (hidle : floor_to_five_minutes_utc now < st.lastEnd + 300) :
    (loopStep rf now fr pf st).fetched = false ∧
    (loopStep rf now fr pf st).queried = none ∧
    (loopStep rf now fr pf st).published = [] ∧
    (loopStep rf now fr pf st).committed = false ∧
    (loopStep rf now fr pf st).state = st ∧
    (loopStep rf now fr pf st).idle = true ∧
    (loopStep rf now fr pf st).brk = !rf := by
  simp [loopStep, hidle]

theorem loopStep_due_facts (rf : Bool) (now : Int) (fr : Except Unit (List Row))
    (pf : Option Nat) (st : LoopState)
    (hdue : st.lastEnd + 300 ≤ floor_to_five_minutes_utc now) :
    (loopStep rf now fr pf st).fetched = true ∧
    (loopStep rf now fr pf st).idle = false ∧
    (loopStep rf now fr pf st).queried = some (st.lastEnd, st.lastEnd + 300) := by
  have hidle : ¬ floor_to_five_minutes_utc now < st.lastEnd + 300 := by omega
  cases fr with
  | error e => simp [loopStep, hidle]
  | ok rows =>
    by_cases hrows : rows.isEmpty
    · simp [loopStep, hidle, hrows]
    · cases pf with
      | none => simp [loopStep, hidle, hrows]
      | some k =>
        by_cases hk : k < rows.length
        · simp [loopStep, hidle, hrows, hk]
        · simp [loopStep, hidle, hrows, hk]

/-! ## Claim theorems -/

/-- C10: the checkpoint read maps both an absent row and a stored NULL to 0,
and startup tests the checkpoint for truthiness, so a stored checkpoint value
of 0 is indistinguishable from "no checkpoint" and the partition-discovery
fallback is consulted even though a checkpoint row exists. -/
theorem zero_checkpoint_indistinguishable :
    get_local_checkpoint [] = 0 ∧
    (∀ rest : List (Option Int), get_local_checkpoint (rest ++ [none]) = 0) ∧
    get_local_checkpoint [some 0] = 0 ∧
    (∀ s3v : Int, resumeAnchor [] s3v = s3v) ∧
    (∀ s3v : Int, resumeAnchor [none] s3v = s3v) ∧
    (∀ s3v : Int, resumeAnchor [some 0] s3v = s3v) ∧
    (∀ v : Int, v ≠ 0 → ∀ s3v : Int, resumeAnchor [some v] s3v = v) := by
  refine ⟨rfl, ?_, rfl, fun s3v => rfl, fun s3v => rfl, fun s3v => rfl, ?_⟩
  · intro rest
    unfold get_local_checkpoint
    rw [List.getLast?_append_cons]
    rfl
  · intro v hv s3v
    unfold resumeAnchor get_local_checkpoint
    simp [hv]

/-- C10 witness: concrete instances of the hypotheses of the last conjunct. -/
theorem zero_checkpoint_indistinguishable_witness :
    get_local_checkpoint ([some 7] ++ [none]) = 0 ∧ resumeAnchor [some 0] 42 = 42 ∧
      resumeAnchor [some 9] 42 = 9 :=
  ⟨zero_checkpoint_indistinguishable.2.1 [some 7],
    zero_checkpoint_indistinguishable.2.2.2.2.2.1 42,
    zero_checkpoint_indistinguishable.2.2.2.2.2.2 9 (by decide) 42⟩

/-- C2: `calc_std` is the pure standard-deviation derivation: undefined when
any input is missing or the count is below 2 (in particular for count 1,
whatever the other inputs), otherwise the square root of the sample variance
`(sumsq - n·avg²)/(n-1)`, clamped to 0 when negative, rounded to 4 decimal
places (the rounding brackets the exact root within half an ulp); the
concrete inputs count=5, avg=10, sumsq=510 give 1.5811. -/
theorem calc_std_contract :
    (∀ s n, calc_std none s n = none) ∧
    (∀ a n, calc_std a none n = none) ∧
    (∀ a s, calc_std a s none = none) ∧
    (∀ (a s : ℚ) (n : Int), n < 2 → calc_std (some a) (some s) (some n) = none) ∧
    (∀ a s : ℚ, calc_std (some a) (some s) (some 1) = none) ∧
    (∀ (a s : ℚ) (n : Int), 2 ≤ n →
      calc_std (some a) (some s) (some n) =
        some (roundSqrt4 (max 0 ((s - (n : ℚ) * a ^ 2) / ((n : ℚ) - 1))))) ∧
    (∀ v : ℚ, 0 ≤ v → ∃ m : ℕ, roundSqrt4 v = (m : ℚ) / 10000 ∧
      (m = 0 ∨ (2 * (m : ℚ) - 1) ^ 2 ≤ 4 * v * 100000000) ∧
      4 * v * 100000000 < (2 * (m : ℚ) + 1) ^ 2) ∧
    calc_std (some 10) (some 510) (some 5) = some (15811 / 10000) := by
  refine ⟨fun s n => ?_, fun a n => ?_, fun a s => ?_, ?_, fun a s => ?_, ?_, roundSqrt4_bracket, ?_⟩
  · cases s <;> cases n <;> rfl
  · cases a <;> cases n <;> rfl
  · cases a <;> cases s <;> rfl
  · intro a s n hn
    simp [calc_std, hn]
  · simp [calc_std]
  · intro a s n hn
    simp only [calc_std, if_neg (by omega : ¬ n < 2)]
    congr 1
    rcases le_or_lt 0 ((s - (n : ℚ) * a ^ 2) / ((n : ℚ) - 1)) with h | h
    · rw [if_neg (not_lt.mpr h), max_eq_right h]
    · rw [if_pos h, max_eq_left (le_of_lt h)]
  · have h1 : calc_std (some 10) (some 510) (some 5) = some (roundSqrt4 (5 / 2)) := by
      simp only [calc_std, if_neg (by norm_num : ¬ (5 : Int) < 2)]
      norm_num
    rw [h1]
    unfold roundSqrt4
    have hfl : ((⌊4 * (5 / 2 : ℚ) * 100000000⌋).toNat) = 1000000000 := by norm_num; rfl
    rw [hfl]
    have hsq : Nat.sqrt 1000000000 = 31622 := by
      symm
      rw [show (31622 : ℕ) = Nat.sqrt 1000000000 ↔ _ from Nat.eq_sqrt]
      norm_num
    rw [hsq]
    norm_num

/-- C2 witness: the hypothesis-bearing conjuncts applied at concrete inputs. -/
theorem calc_std_contract_witness :
    calc_std (some 3) (some 4) (some 1) = none ∧
    calc_std (some 10) (some 510) (some 5) =
      some (roundSqrt4 (max 0 ((510 - ((5 : Int) : ℚ) * 10 ^ 2) / (((5 : Int) : ℚ) - 1)))) ∧
    (∃ m : ℕ, roundSqrt4 (5 / 2) = (m : ℚ) / 10000 ∧
      (m = 0 ∨ (2 * (m : ℚ) - 1) ^ 2 ≤ 4 * (5 / 2) * 100000000) ∧
      4 * (5 / 2 : ℚ) * 100000000 < (2 * (m : ℚ) + 1) ^ 2) :=
  ⟨calc_std_contract.2.2.2.1 3 4 1 (by decide),
    calc_std_contract.2.2.2.2.2.1 10 510 5 (by decide),
    calc_std_contract.2.2.2.2.2.2.1 (5 / 2) (by norm_num)⟩

/-- C3: window tiling — for every instant `i`, `floor_to_window(i)` is at most
`i`, exceeds `i - 300`, and is aligned on a multiple of 300 seconds (a 5-minute
UTC boundary with zero seconds); and every window the loop queries is exactly
`[anchor, anchor + 300)`, with a commit advancing the anchor to the window end,
so successive windows satisfy `next.start = previous.end` (no gap, no
overlap). -/
theorem window_tiling :
    (∀ i : Int, floor_to_five_minutes_utc i ≤ i ∧ i < floor_to_five_minutes_utc i + 300 ∧
      floor_to_five_minutes_utc i % 300 = 0) ∧
    (∀ (rf : Bool) (now : Int) (fr : Except Unit (List Row)) (pf : Option Nat)
      (st : LoopState) (w : Int × Int),
      (loopStep rf now fr pf st).queried = some w → w = (st.lastEnd, st.lastEnd + 300)) ∧
    (∀ (rf : Bool) (now : Int) (fr : Except Unit (List Row)) (pf : Option Nat)
      (st : LoopState),
      (loopStep rf now fr pf st).committed = true →
        (loopStep rf now fr pf st).state.lastEnd = st.lastEnd + 300) := by
  refine ⟨?_, loopStep_queried, fun rf now fr pf st => (loopStep_lastEnd rf now fr pf st).1⟩
  intro i
  have h : floor_to_five_minutes_utc i = 300 * (i / 300) := by
    simp only [floor_to_five_minutes_utc]
    omega
  omega

/-- C3 witness: the tiling bounds at a concrete instant and a concretely
queried window. -/
theorem window_tiling_witness :
    (floor_to_five_minutes_utc 1762560650 ≤ 1762560650 ∧
      (1762560650 : Int) < floor_to_five_minutes_utc 1762560650 + 300 ∧
      floor_to_five_minutes_utc 1762560650 % 300 = 0) ∧
    ((1762560000, 1762560300) : Int × Int) = (1762560000, 1762560000 + 300) :=
  ⟨window_tiling.1 1762560650,
    window_tiling.2.1 true 1762560600 (Except.ok []) none ⟨1762560000, []⟩
      (1762560000, 1762560300) (by decide)⟩

/-- C4: the checkpoint is monotonically non-decreasing across any run — in
fact every committed write stores exactly the previous anchor plus 300, so the
written values strictly increase; and the partition-discovery fallback cannot
cause a regression because a non-zero checkpoint is always used as-is. -/
theorem checkpoint_monotone :
    (∀ (rf : Bool) (ins : List StepIn) (st : LoopState),
      List.Chain (fun a b => b = a + 300) st.lastEnd (runSteps rf ins st).2) ∧
    (∀ (rf : Bool) (ins : List StepIn) (st : LoopState),
      List.Chain (· < ·) st.lastEnd (runSteps rf ins st).2) ∧
    (∀ (tbl : CkptTable) (s3v : Int), get_local_checkpoint tbl ≠ 0 →
      resumeAnchor tbl s3v = get_local_checkpoint tbl) := by
  refine ⟨runSteps_chain, ?_, ?_⟩
  · intro rf ins st
    exact List.Chain.imp (fun a b h => by omega) (runSteps_chain rf ins st)
  · intro tbl s3v h
    unfold resumeAnchor
    simp [h]

/-- C4 witness: a concrete two-commit run whose checkpoint writes step by 300,
and a concrete non-zero checkpoint that overrides the fallback. -/
theorem checkpoint_monotone_witness :
    List.Chain (· < ·) (1762560000 : Int)
      (runSteps true
        [⟨1762560600, Except.ok [], none⟩, ⟨1762560600, Except.ok [], none⟩]
        ⟨1762560000, []⟩).2 ∧
    resumeAnchor [some 5] 99 = get_local_checkpoint [some 5] :=
  ⟨checkpoint_monotone.2.1 true
      [⟨1762560600, Except.ok [], none⟩, ⟨1762560600, Except.ok [], none⟩]
      ⟨1762560000, []⟩,
    checkpoint_monotone.2.2 [some 5] 99 (by decide)⟩

/-- C5: a due window whose aggregate query returns zero rows publishes nothing
and still advances the checkpoint by exactly one window (300 s): empty windows
are committed, not retried. -/
theorem empty_window_commits (rf : Bool) (now : Int) (pf : Option Nat)
    (st : LoopState) (hdue : st.lastEnd + 300 ≤ floor_to_five_minutes_utc now) :
    (loopStep rf now (Except.ok []) pf st).published = [] ∧
    (loopStep rf now (Except.ok []) pf st).committed = true ∧
    (loopStep rf now (Except.ok []) pf st).state.lastEnd = st.lastEnd + 300 ∧
    (loopStep rf now (Except.ok []) pf st).state.tbl =
      update_local_checkpoint (st.lastEnd + 300) ∧
    get_local_checkpoint (loopStep rf now (Except.ok []) pf st).state.tbl =
      st.lastEnd + 300 ∧
    (loopStep rf now (Except.ok []) pf st).errored = false := by
  have hidle : ¬ floor_to_five_minutes_utc now < st.lastEnd + 300 := by omega
  simp [loopStep, hidle, update_local_checkpoint, get_local_checkpoint]

/-- C5 witness. -/
theorem empty_window_commits_witness :
    (loopStep true 1762560600 (Except.ok []) none ⟨1762560000, [some 1762560000]⟩).published
        = [] ∧
    (loopStep true 1762560600 (Except.ok []) none
        ⟨1762560000, [some 1762560000]⟩).committed = true ∧
    (loopStep true 1762560600 (Except.ok []) none
        ⟨1762560000, [some 1762560000]⟩).state.lastEnd = 1762560000 + 300 ∧
    (loopStep true 1762560600 (Except.ok []) none
        ⟨1762560000, [some 1762560000]⟩).state.tbl =
      update_local_checkpoint (1762560000 + 300) ∧
    get_local_checkpoint
        (loopStep true 1762560600 (Except.ok []) none
          ⟨1762560000, [some 1762560000]⟩).state.tbl = 1762560000 + 300 ∧
    (loopStep true 1762560600 (Except.ok []) none
        ⟨1762560000, [some 1762560000]⟩).errored = false :=
  empty_window_commits true 1762560600 none ⟨1762560000, [some 1762560000]⟩ (by decide)

/-- C6: when the next window has not fully elapsed
(`floor_to_window(now) < next_end`), the iteration performs no store read, no
publish and no checkpoint write — it idles, sleeping in continuous mode and
breaking out of the loop in one-pass mode; a window is read only when
`next_end ≤ floor_to_window(now)`. -/
theorem idle_no_publish (rf : Bool) (now : Int) (fr : Except Unit (List Row))
    (pf : Option Nat) (st : LoopState) :
    (floor_to_five_minutes_utc now < st.lastEnd + 300 →
      (loopStep rf now fr pf st).fetched = false ∧
      (loopStep rf now fr pf st).queried = none ∧
      (loopStep rf now fr pf st).published = [] ∧
      (loopStep rf now fr pf st).committed = false ∧
      (loopStep rf now fr pf st).state = st ∧
      (loopStep rf now fr pf st).idle = true ∧
      (loopStep rf now fr pf st).brk = !rf) ∧
    (st.lastEnd + 300 ≤ floor_to_five_minutes_utc now →
      (loopStep rf now fr pf st).fetched = true ∧
      (loopStep rf now fr pf st).idle = false) := by
  exact ⟨loopStep_idle_facts rf now fr pf st,
    fun hdue => ⟨(loopStep_due_facts rf now fr pf st hdue).1,
      (loopStep_due_facts rf now fr pf st hdue).2.1⟩⟩

/-- C6 witness: a not-yet-elapsed window idles (clock floored to 1762560600,
next end 1762560900), and a due window is read. -/
theorem idle_no_publish_witness :
    ((loopStep true 1762560650 (Except.ok []) none ⟨1762560600, []⟩).fetched = false ∧
      (loopStep true 1762560650 (Except.ok []) none ⟨1762560600, []⟩).queried = none ∧
      (loopStep true 1762560650 (Except.ok []) none ⟨1762560600, []⟩).published = [] ∧
      (loopStep true 1762560650 (Except.ok []) none ⟨1762560600, []⟩).committed = false ∧
      (loopStep true 1762560650 (Except.ok []) none ⟨1762560600, []⟩).state =
        (⟨1762560600, []⟩ : LoopState) ∧
      (loopStep true 1762560650 (Except.ok []) none ⟨1762560600, []⟩).idle = true ∧
      (loopStep true 1762560650 (Except.ok []) none ⟨1762560600, []⟩).brk = !true) ∧
    ((loopStep false 1762560650 (Except.ok []) none ⟨1762560300, []⟩).fetched = true ∧
      (loopStep false 1762560650 (Except.ok []) none ⟨1762560300, []⟩).idle = false) :=
  ⟨(idle_no_publish true 1762560650 (Except.ok []) none ⟨1762560600, []⟩).1 (by decide),
    (idle_no_publish false 1762560650 (Except.ok []) none ⟨1762560300, []⟩).2 (by decide)⟩

/-- C9: if the aggregate read raises, or publishing any device's record
raises, the checkpoint is not advanced: the stored table and the in-memory
anchor keep their pre-attempt values, the run ends with an error, and the
window that was being attempted is exactly `[anchor, anchor + 300)`, so the
same window is the next one attempted after restart. -/
theorem failure_no_checkpoint_advance :
    (∀ (rf : Bool) (now : Int) (pf : Option Nat) (st : LoopState),
      st.lastEnd + 300 ≤ floor_to_five_minutes_utc now →
        (loopStep rf now (Except.error ()) pf st).state = st ∧
        (loopStep rf now (Except.error ()) pf st).committed = false ∧
        (loopStep rf now (Except.error ()) pf st).errored = true ∧
        (loopStep rf now (Except.error ()) pf st).queried =
          some (st.lastEnd, st.lastEnd + 300)) ∧
    (∀ (rf : Bool) (now : Int) (rows : List Row) (k : Nat) (st : LoopState),
      st.lastEnd + 300 ≤ floor_to_five_minutes_utc now → k < rows.length →
        (loopStep rf now (Except.ok rows) (some k) st).state = st ∧
        (loopStep rf now (Except.ok rows) (some k) st).committed = false ∧
        (loopStep rf now (Except.ok rows) (some k) st).errored = true ∧
        (loopStep rf now (Except.ok rows) (some k) st).queried =
          some (st.lastEnd, st.lastEnd + 300) ∧
        (loopStep rf now (Except.ok rows) (some k) st).published.length = k) := by
  constructor
  · intro rf now pf st hdue
    have hidle : ¬ floor_to_five_minutes_utc now < st.lastEnd + 300 := by omega
    simp [loopStep, hidle]
  · intro rf now rows k st hdue hk
    have hidle : ¬ floor_to_five_minutes_utc now < st.lastEnd + 300 := by omega
    have hrows : ¬ rows.isEmpty := by
      cases rows with
      | nil => simp at hk
      | cons a l => simp
    simp [loopStep, hidle, hrows, hk, List.length_take]
    omega

/-- C9 witness: a failing read and a publish failing on the second record both
leave the state untouched. -/
theorem failure_no_checkpoint_advance_witness :
    ((loopStep true 1762560600 (Except.error ()) none
        ⟨1762560000, [some 1762560000]⟩).state =
          (⟨1762560000, [some 1762560000]⟩ : LoopState) ∧
      (loopStep true 1762560600 (Except.error ()) none
        ⟨1762560000, [some 1762560000]⟩).committed = false ∧
      (loopStep true 1762560600 (Except.error ()) none
        ⟨1762560000, [some 1762560000]⟩).errored = true ∧
      (loopStep true 1762560600 (Except.error ()) none
        ⟨1762560000, [some 1762560000]⟩).queried =
          some (1762560000, 1762560000 + 300)) ∧
    ((loopStep true 1762560600
        (Except.ok [mkRow "dev-a" 3, mkRow "dev-b" 3]) (some 1)
        ⟨1762560000, [some 1762560000]⟩).state =
          (⟨1762560000, [some 1762560000]⟩ : LoopState) ∧
      (loopStep true 1762560600 (Except.ok [mkRow "dev-a" 3, mkRow "dev-b" 3]) (some 1)
        ⟨1762560000, [some 1762560000]⟩).committed = false ∧
      (loopStep true 1762560600 (Except.ok [mkRow "dev-a" 3, mkRow "dev-b" 3]) (some 1)
        ⟨1762560000, [some 1762560000]⟩).errored = true ∧
      (loopStep true 1762560600 (Except.ok [mkRow "dev-a" 3, mkRow "dev-b" 3]) (some 1)
        ⟨1762560000, [some 1762560000]⟩).queried =
          some (1762560000, 1762560000 + 300) ∧
      (loopStep true 1762560600 (Except.ok [mkRow "dev-a" 3, mkRow "dev-b" 3]) (some 1)
        ⟨1762560000, [some 1762560000]⟩).published.length = 1) :=
  ⟨failure_no_checkpoint_advance.1 true 1762560600 none
      ⟨1762560000, [some 1762560000]⟩ (by decide),
    failure_no_checkpoint_advance.2 true 1762560600
      [mkRow "dev-a" 3, mkRow "dev-b" 3] 1 ⟨1762560000, [some 1762560000]⟩
      (by decide) (by decide)⟩

/-- C1 counterexample: when the local checkpoint is absent and the S3 listing
fails, `get_latest_s3_window_utc` returns `0` — an ordinary instant, not a
distinguished "none" — the resume anchor becomes `0` rather than
`now - 300` (at the concrete clock 1762560600 the spec's anchor would be
1762560300), and the loop then queries the window `[0, 300)`: a failed
discovery is treated as "start from epoch". -/
theorem resume_fallback_failure_cex :
    get_latest_s3_window_utc true false
        ["data/year=2025/month=11/day=08/hour=00/min5=05/part-0001.json"] = 0 ∧
    resumeAnchor [] (get_latest_s3_window_utc true false
        ["data/year=2025/month=11/day=08/hour=00/min5=05/part-0001.json"]) = 0 ∧
    resumeAnchor [] 0 ≠ 1762560600 - 300 ∧
    (loopStep true 1762560600 (Except.ok []) none ⟨0, []⟩).queried = some (0, 300) ∧
    (loopStep true 1762560600 (Except.ok []) none ⟨0, []⟩).fetched = true := by
  refine ⟨by decide, by decide, by decide, ?_, ?_⟩
  · exact (loopStep_due_facts true 1762560600 (Except.ok []) none ⟨0, []⟩ (by decide)).2.2
  · exact (loopStep_due_facts true 1762560600 (Except.ok []) none ⟨0, []⟩ (by decide)).1

/-- C1 (amended): at startup, when the local checkpoint is absent the resume
anchor is taken from the partition-discovery fallback; but when the listing
fails or yields nothing the fallback returns `0` (not a distinguished "none"),
there is no `now - 300` default, the anchor becomes `0`, and the loop treats
the failed discovery as "start from epoch": its first due window is
`[0, 300)`. -/
theorem resume_fallback_failure_amended :
    (∀ s3v : Int, resumeAnchor [] s3v = s3v) ∧
    (∀ (tz : Bool) (keys : List String), get_latest_s3_window_utc tz false keys = 0) ∧
    (∀ tz : Bool, get_latest_s3_window_utc tz true [] = 0) ∧
    (∀ (rf : Bool) (now : Int) (fr : Except Unit (List Row)) (pf : Option Nat)
      (tbl : CkptTable), 300 ≤ floor_to_five_minutes_utc now →
        (loopStep rf now fr pf ⟨0, tbl⟩).queried = some (0, 300) ∧
        (loopStep rf now fr pf ⟨0, tbl⟩).fetched = true) := by
  refine ⟨fun s3v => rfl, fun tz keys => rfl, fun tz => rfl, ?_⟩
  intro rf now fr pf tbl hdue
  have hf := loopStep_due_facts rf now fr pf ⟨0, tbl⟩ (by simpa using hdue)
  exact ⟨by simpa using hf.2.2, hf.1⟩

/-- C1 witness: with an absent checkpoint and a failed listing the concrete
anchor is 0 and the first window queried at the concrete clock is `[0, 300)`. -/
theorem resume_fallback_failure_amended_witness :
    resumeAnchor [] 0 = 0 ∧
    get_latest_s3_window_utc true false [] = 0 ∧
    (loopStep true 1762560600 (Except.ok []) none ⟨0, []⟩).queried = some (0, 300) ∧
    (loopStep true 1762560600 (Except.ok []) none ⟨0, []⟩).fetched = true :=
  ⟨resume_fallback_failure_amended.1 0,
    resume_fallback_failure_amended.2.1 true [],
    (resume_fallback_failure_amended.2.2.2 true 1762560600 (Except.ok []) none []
      (by decide)).1,
    (resume_fallback_failure_amended.2.2.2 true 1762560600 (Except.ok []) none []
      (by decide)).2⟩

/-- C7 counterexample: the claim's "converting through the fixed zone"
conversion is false of the program — for the partition key
`year=1987,month=06,day=15,hour=00,min5=00` (a date the `datetime`
constructor accepts) in the non-UTC partition zone, the source converts
through `ZoneInfo("Asia/Seoul")` at its 1987 DST offset of +10 h, producing
550677900, one hour earlier than the 550681500 a fixed +9 h zone would
give. -/
theorem s3_zone_not_fixed_cex :
    validDate 1987 6 15 0 0 = true ∧
    parse_s3_key false "data/year=1987/month=06/day=15/hour=00/min5=00/x.json" =
      some 550677900 ∧
    s3_part_to_end_utc false 1987 6 15 0 0 = 550677900 ∧
    s3_part_to_end_fixed_kst_spec 1987 6 15 0 0 = 550681500 ∧
    s3_part_to_end_utc false 1987 6 15 0 0 ≠ s3_part_to_end_fixed_kst_spec 1987 6 15 0 0 := by
  refine ⟨by decide, by decide, by decide, by decide, by decide⟩

/-- C7 (amended): partition discovery converts each listed key's encoded
`(year, month, day, hour, min5)` in the configured zone to a window-end
instant equal to the encoded bucket start plus 5 minutes — converting through
the configured zone (`Asia/Seoul`: +9 h, except +10 h during its 1987-88 DST
periods, so not a fixed zone) to UTC when the partition zone is not UTC —
returns the maximum end over all recognised keys, and skips individual
unparsable keys without aborting the listing pass; the sole partition
`year=2025,month=11,day=08,hour=00,min5=05` in UTC yields resume anchor
1762560600 = 2025-11-08T00:10:00Z. -/
theorem s3_discovery_latest :
    (∀ (tz : Bool) (keys : List String),
      get_latest_s3_window_utc tz true keys =
        (keys.filterMap (parse_s3_key tz)).foldl max 0) ∧
    (∀ (tz : Bool) (keys1 keys2 : List String) (k : String),
      parse_s3_key tz k = none →
        get_latest_s3_window_utc tz true (keys1 ++ k :: keys2) =
          get_latest_s3_window_utc tz true (keys1 ++ keys2)) ∧
    (∀ y mo d h m5 : Int, validDate y mo d h m5 = true →
      s3_part_to_end_utc true y mo d h m5 =
        (daysFromCivil y mo d * 86400 + h * 3600 + m5 * 60) + 300) ∧
    (∀ y mo d h m5 : Int, validDate y mo d h m5 = true → 1962 ≤ y →
      seoulOffsetOfCivil (daysFromCivil y mo d * 86400 + h * 3600 + m5 * 60 + 300) =
          32400 →
        s3_part_to_end_utc false y mo d h m5 =
          ((daysFromCivil y mo d * 86400 + h * 3600 + m5 * 60) + 300) - 32400) ∧
    s3_part_to_end_utc false 1987 6 15 0 0 =
      ((daysFromCivil 1987 6 15 * 86400) + 300) - 36000 ∧
    parse_s3_key true
      "data/year=2025/month=11/day=08/hour=00/min5=05/part-0001.json" =
        some 1762560600 ∧
    civilOfEpoch 0 1762560600 = ⟨2025, 11, 8, 0, 10, 0⟩ ∧
    get_latest_s3_window_utc true true
      ["data/year=2025/month=11/day=08/hour=00/min5=05/part-0001.json",
        "data/year=oops/month=11/day=08/hour=00/min5=05/x.json"] = 1762560600 ∧
    parse_s3_key true "data/year=oops/month=11/day=08/hour=00/min5=05/x.json" = none ∧
    s3_part_to_end_utc false 2025 11 8 9 5 = 1762560600 := by
  refine ⟨?_, ?_, ?_, ?_, by decide, by decide, by decide, by decide, by decide, by decide⟩
  · intro tz keys
    unfold get_latest_s3_window_utc
    rw [if_pos rfl]
    exact get_latest_foldl tz keys 0
  · intro tz keys1 keys2 k hk
    unfold get_latest_s3_window_utc
    rw [if_pos rfl, if_pos rfl, get_latest_foldl, get_latest_foldl,
      List.filterMap_append, List.filterMap_append]
    simp [List.filterMap_cons, hk]
  · intro y mo d h m5 hvalid
    simp only [s3_part_to_end_utc, if_true]
  · intro y mo d h m5 hvalid hy hoff
    simp only [s3_part_to_end_utc]
    rw [if_neg (by simp), hoff]

/-- C7 witness: skipping a concrete malformed key, and the per-key end
formulas (UTC mode, and non-UTC mode outside the DST periods) at concrete
partitions. -/
theorem s3_discovery_latest_witness :
    get_latest_s3_window_utc true true
        (["data/year=2025/month=11/day=08/hour=00/min5=05/part-0001.json"] ++
          "data/year=oops/month=11/day=08/hour=00/min5=05/x.json" :: []) =
      get_latest_s3_window_utc true true
        (["data/year=2025/month=11/day=08/hour=00/min5=05/part-0001.json"] ++ []) ∧
    s3_part_to_end_utc true 2025 11 8 0 5 =
      (daysFromCivil 2025 11 8 * 86400 + 0 * 3600 + 5 * 60) + 300 ∧
    s3_part_to_end_utc false 2025 11 8 9 5 =
      ((daysFromCivil 2025 11 8 * 86400 + 9 * 3600 + 5 * 60) + 300) - 32400 :=
  ⟨s3_discovery_latest.2.1 true
      ["data/year=2025/month=11/day=08/hour=00/min5=05/part-0001.json"] []
      "data/year=oops/month=11/day=08/hour=00/min5=05/x.json" (by decide),
    s3_discovery_latest.2.2.1 2025 11 8 0 5 (by decide),
    s3_discovery_latest.2.2.2.1 2025 11 8 9 5 (by decide) (by decide) (by decide)⟩

/-- C8 counterexample: the reader's bound rendering is not "the same format
the writer used" at every instant, and the matched-iff-in-window equivalence
fails — at UTC instant 552096000 (1987-07-01T00:00:00Z, inside the 1987 DST
period) the reader renders the bound through `Asia/Seoul` at +10 h as
`"1987-07-01 10:00:00"` while the writer stored the row at the fixed +9 h as
`"1987-07-01 09:00:00"`, so the row whose instant starts the window
`[552096000, 552096300)` is not matched by the query. -/
theorem timezone_bridging_cex :
    window_bound_kst_text 552096000 = "1987-07-01 10:00:00" ∧
    to_kst_str_from_any 552096000 = "1987-07-01 09:00:00" ∧
    window_bound_kst_text 552096000 ≠ to_kst_str_from_any 552096000 ∧
    (0 : Int) ≤ 552096000 ∧ (552096000 : Int) ≤ 552096000 ∧
    (552096000 : Int) < 552096300 ∧
    ts_in_window 552096000 552096300 552096000 = false := by
  refine ⟨by decide, by decide, by decide, by decide, by decide, by decide, by decide⟩

/-- C8 (amended): the aggregate reader converts the UTC window bounds
`[start, end)` into civil strings through `ZoneInfo("Asia/Seoul")` — which
coincides with the writer's fixed +9 h zone at every instant outside the
1987-88 DST periods — in the writer's `"YYYY-MM-DD HH:MM:SS"` format, so a
row stored with civil timestamp `"2025-11-08 09:05:00"` is retrieved by the
query window computed from UTC instants 1762560300 (2025-11-08T00:05:00Z) and
1762560600 (00:10:00Z); and in general a stored row is matched by a window
iff its instant lies in the half-open window, provided both window bounds lie
outside the 1987-88 DST periods (inside them the reader's bounds are rendered
one hour ahead of the writer's rows and the equivalence fails). -/
theorem timezone_bridging :
    (∀ e : Int, seoulOffset e = 32400 →
      window_bound_kst_text e = to_kst_str_from_any e) ∧
    window_bound_kst_text 1762560300 = "2025-11-08 09:05:00" ∧
    window_bound_kst_text 1762560600 = "2025-11-08 09:10:00" ∧
    to_kst_str_from_any 1762560300 = "2025-11-08 09:05:00" ∧
    ts_in_window 1762560300 1762560600 1762560300 = true ∧
    (∀ s e t : Int, 0 ≤ s → 0 ≤ e → 0 ≤ t →
      seoulOffset s = 32400 → seoulOffset e = 32400 →
      (ts_in_window s e t = true ↔ s ≤ t ∧ t < e)) := by
  refine ⟨?_, by decide, by decide, by decide, by decide, ts_in_window_iff⟩
  intro e he
  unfold window_bound_kst_text to_kst_str_from_any civilOfEpochSeoul
  rw [he]

/-- C8 witness: the format agreement and the general window-membership
equivalence at the concrete KST-bridged window and row instant (all outside
the DST periods). -/
theorem timezone_bridging_witness :
    window_bound_kst_text 1762560300 = to_kst_str_from_any 1762560300 ∧
    (ts_in_window 1762560300 1762560600 1762560300 = true ↔
      (1762560300 : Int) ≤ 1762560300 ∧ (1762560300 : Int) < 1762560600) :=
  ⟨timezone_bridging.1 1762560300 (by decide),
    timezone_bridging.2.2.2.2.2 1762560300 1762560600 1762560300
      (by decide) (by decide) (by decide) (by decide) (by decide)⟩
